import Mathlib

-- A verification development for the prompt-tuning engine in tune-prompt.py.
-- The shallow embedding covers: the Python string helpers the script relies
-- on (strip, split, lower), the format-string grammar used by str.format and
-- string.Formatter.parse, placeholder extraction and missing-variable
-- solicitation, task-type detection, the session store (history table and
-- per-type summary table), and one iteration / the fueled run of the
-- interactive tuning loop.  Backend completions and user inputs are passed in
-- as explicit data so the loop body is a pure function.

namespace TunePrompt

/-- Python str.isspace restricted to the ASCII whitespace characters
(space, tab, newline, carriage return, vertical tab, form feed); non-ASCII
whitespace is not modelled. -/
def pyIsSpace (c : Char) : Bool :=
  (c == ' ') || (c == '\t') || (c == '\n') || (c == '\r') || (c == '\x0b') || (c == '\x0c')

/-- Python str.strip with no argument: drop leading and trailing whitespace. -/
def pyStrip (s : String) : String :=
  String.mk (((s.data.dropWhile pyIsSpace).reverse.dropWhile pyIsSpace).reverse)

/-- Python str.lower on one character, for the ASCII range (non-ASCII
lowering is not modelled). -/
def pyLowerChar (c : Char) : Char :=
  if 65 ≤ c.toNat ∧ c.toNat ≤ 90 then Char.ofNat (c.toNat + 32) else c

/-- Python str.lower. -/
def pyLower (s : String) : String :=
  String.mk (s.data.map pyLowerChar)

/-- Helper for pySplit: the second argument accumulates the current word in
reverse. -/
def pySplitAux : List Char → List Char → List String
  | [], acc => if acc.isEmpty then [] else [String.mk acc.reverse]
  | c :: cs, acc =>
    if pyIsSpace c then
      if acc.isEmpty then pySplitAux cs []
      else String.mk acc.reverse :: pySplitAux cs []
    else pySplitAux cs (c :: acc)

/-- Python str.split with no separator: split on runs of whitespace,
producing no empty tokens. -/
def pySplit (s : String) : List String :=
  pySplitAux s.data []

/-- detect_prompt_type (tune-prompt.py lines 20-30), modelled as a function of
the text the backend returned: result.strip().split()[0].lower().  The result
is none when the stripped response has no tokens, which is the case where the
script raises IndexError (the failure the specification calls
ClassificationFailed). -/
def detect_prompt_type (response : String) : Option String :=
  match pySplit (pyStrip response) with
  | [] => none
  | t :: _ => some (pyLower t)

/-- A piece of a format spec: literal text or a nested replacement field. -/
inductive SpecPart where
  | lit (s : String)
  | field (name : String)
deriving DecidableEq

/-- A parsed segment of a format string: literal text, or a replacement field
carrying its field name, optional conversion character and format spec. -/
inductive Seg where
  | lit (s : String)
  | field (name : String) (conv : Option Char) (spec : List SpecPart)
deriving DecidableEq

/-- Scanner state for the format-string parser. -/
inductive PSt where
  | top
  | lbrace
  | rbrace
  | fname (acc : List Char)
  | conv1 (name : String)
  | aconv (name : String) (c : Char)
  | specSt (name : String) (conv : Option Char) (parts : List SpecPart) (acc : List Char)
  | specFld (name : String) (conv : Option Char) (parts : List SpecPart) (acc : List Char)

/-- Append the pending literal characters (held in reverse) as a literal
segment, if any. -/
def flushLit (acc : List Char) (segs : List Seg) : List Seg :=
  if acc.isEmpty then segs else Seg.lit (String.mk acc.reverse) :: segs

/-- Append the pending literal spec characters (held in reverse) as a literal
spec part, if any. -/
def flushSpecLit (acc : List Char) (parts : List SpecPart) : List SpecPart :=
  if acc.isEmpty then parts else SpecPart.lit (String.mk acc.reverse) :: parts

/-- One-character-at-a-time scanner for the Python format-string grammar used
by str.format and string.Formatter.parse: doubled braces are literal braces, a
single closing brace is an error, a replacement field consists of a field
name, an optional conversion introduced by an exclamation mark, and an
optional format spec introduced by a colon; the spec may contain nested
replacement fields one level deep.  Segments and parts are accumulated in
reverse.  Returns none on a malformed template, the case where Python raises
ValueError. -/
def parseLoop : List Char → PSt → List Char → List Seg → Option (List Seg)
  | [], PSt.top, lit, segs => some ((flushLit lit segs).reverse)
  | [], _, _, _ => none
  | c :: cs, PSt.top, lit, segs =>
    if c == '{' then parseLoop cs PSt.lbrace lit segs
    else if c == '}' then parseLoop cs PSt.rbrace lit segs
    else parseLoop cs PSt.top (c :: lit) segs
  | c :: cs, PSt.lbrace, lit, segs =>
    if c == '{' then parseLoop cs PSt.top ('{' :: lit) segs
    else if c == '}' then parseLoop cs PSt.top [] (Seg.field "" none [] :: flushLit lit segs)
    else if c == ':' then parseLoop cs (PSt.specSt "" none [] []) [] (flushLit lit segs)
    else if c == '!' then parseLoop cs (PSt.conv1 "") [] (flushLit lit segs)
    else parseLoop cs (PSt.fname [c]) [] (flushLit lit segs)
  | c :: cs, PSt.rbrace, lit, segs =>
    if c == '}' then parseLoop cs PSt.top ('}' :: lit) segs
    else none
  | c :: cs, PSt.fname acc, _, segs =>
    if c == '}' then parseLoop cs PSt.top [] (Seg.field (String.mk acc.reverse) none [] :: segs)
    else if c == ':' then parseLoop cs (PSt.specSt (String.mk acc.reverse) none [] []) [] segs
    else if c == '!' then parseLoop cs (PSt.conv1 (String.mk acc.reverse)) [] segs
    else if c == '{' then none
    else parseLoop cs (PSt.fname (c :: acc)) [] segs
  | c :: cs, PSt.conv1 name, _, segs =>
    if c == '}' then none
    else parseLoop cs (PSt.aconv name c) [] segs
  | c :: cs, PSt.aconv name cv, _, segs =>
    if c == '}' then parseLoop cs PSt.top [] (Seg.field name (some cv) [] :: segs)
    else if c == ':' then parseLoop cs (PSt.specSt name (some cv) [] []) [] segs
    else none
  | c :: cs, PSt.specSt name cv parts acc, _, segs =>
    if c == '}' then
      parseLoop cs PSt.top [] (Seg.field name cv ((flushSpecLit acc parts).reverse) :: segs)
    else if c == '{' then parseLoop cs (PSt.specFld name cv (flushSpecLit acc parts) []) [] segs
    else parseLoop cs (PSt.specSt name cv parts (c :: acc)) [] segs
  | c :: cs, PSt.specFld name cv parts acc, _, segs =>
    if c == '}' then
      parseLoop cs (PSt.specSt name cv (SpecPart.field (String.mk acc.reverse) :: parts) []) [] segs
    else if c == '{' then none
    else parseLoop cs (PSt.specFld name cv parts (c :: acc)) [] segs

/-- Parse a template into segments; none means the template is malformed. -/
def parseTemplate (t : String) : Option (List Seg) :=
  parseLoop t.data PSt.top [] []

/-- The two classes of error the tuning loop distinguishes when formatting:
KeyError carrying the missing key (caught specifically at line 348), and
everything else (ValueError, IndexError, AttributeError and so on, caught by
the generic handler at line 353). -/
inductive PyErr where
  | keyError (name : String)
  | generic
deriving DecidableEq

deriving instance DecidableEq for Except

/-- A character that may appear before attribute or index access in a field
name: anything except a dot or an opening square bracket. -/
def simpleChar (c : Char) : Bool := !(c == '.') && !(c == '[')

/-- Model of looking up one replacement field when str.format is called with
keyword arguments only, as in line 347.  The first component of the field
name (up to the first dot or bracket) is looked up in the mapping; a missing
key raises KeyError with exactly that component.  An empty or all-digit first
component addresses positional arguments, of which there are none, so Python
raises IndexError, a non-KeyError error.  Attribute or index access applied to
the looked-up plain string value is likewise modelled as a non-KeyError
formatting error. -/
def lookupVar (vars : List (String × String)) (name : String) : Except PyErr String :=
  let first := String.mk (name.data.takeWhile simpleChar)
  if first.data.isEmpty then Except.error PyErr.generic
  else if first.data.all Char.isDigit then Except.error PyErr.generic
  else
    match List.lookup first vars with
    | none => Except.error (PyErr.keyError first)
    | some v =>
      if name.data.length = first.data.length then Except.ok v
      else Except.error PyErr.generic

/-- An approximation of Python repr for quote-free strings: wrap the text in
single quotes (character 39). -/
def pyRepr (s : String) : String :=
  String.mk (Char.ofNat 39 :: s.data ++ [Char.ofNat 39])

/-- Conversion application: none and s leave a string value unchanged, r and
a produce its repr, any other conversion character raises ValueError. -/
def applyConv (conv : Option Char) (v : String) : Except PyErr String :=
  match conv with
  | none => Except.ok v
  | some c =>
    if c == 's' then Except.ok v
    else if c == 'r' || c == 'a' then Except.ok (pyRepr v)
    else Except.error PyErr.generic

/-- Resolve the replacement fields nested inside a format spec: each nested
field is looked up exactly like a top-level one (so a missing keyword raises
KeyError); the visual effect of the spec on the output is not modelled. -/
def resolveSpecParts (vars : List (String × String)) : List SpecPart → Except PyErr Unit
  | [] => Except.ok ()
  | SpecPart.lit _ :: rest => resolveSpecParts vars rest
  | SpecPart.field n :: rest =>
    match lookupVar vars n with
    | Except.error e => Except.error e
    | Except.ok _ => resolveSpecParts vars rest

/-- Render one replacement field: look up the value, apply the conversion,
resolve the fields nested in the spec (in the order Python raises their
errors). -/
def renderField (name : String) (conv : Option Char) (spec : List SpecPart)
    (vars : List (String × String)) : Except PyErr String :=
  match lookupVar vars name with
  | Except.error e => Except.error e
  | Except.ok v =>
    match applyConv conv v with
    | Except.error e => Except.error e
    | Except.ok v2 =>
      match resolveSpecParts vars spec with
      | Except.error e => Except.error e
      | Except.ok _ => Except.ok v2

/-- Render a parsed template left to right, stopping at the first error, as
Python does. -/
def renderSegs (vars : List (String × String)) : List Seg → Except PyErr String
  | [] => Except.ok ""
  | Seg.lit s :: rest =>
    match renderSegs vars rest with
    | Except.error e => Except.error e
    | Except.ok r => Except.ok (s ++ r)
  | Seg.field n cv sp :: rest =>
    match renderField n cv sp vars with
    | Except.error e => Except.error e
    | Except.ok v =>
      match renderSegs vars rest with
      | Except.error e => Except.error e
      | Except.ok r => Except.ok (v ++ r)

/-- current_prompt.format(**variables), line 347: parse, then render; a parse
error is a ValueError, hence a generic (non-KeyError) failure. -/
def pyFormat (t : String) (vars : List (String × String)) : Except PyErr String :=
  match parseTemplate t with
  | none => Except.error PyErr.generic
  | some segs => renderSegs vars segs

/-- The field name contributed by a segment to the extraction at line 41:
literal segments contribute nothing (fname is None), fields contribute their
name when it is truthy, that is, non-empty. -/
def extractName : Seg → Option String
  | Seg.lit _ => none
  | Seg.field n _ _ => if n = "" then none else some n

/-- Line 41 of input_missing_vars: the comprehension over
string.Formatter().parse keeping truthy field names.  Returns none when
parsing raises (malformed template).  Python collects the names into a set;
here duplicates may repeat in the list, which affects only multiplicity, not
membership. -/
def extract_placeholders (t : String) : Option (List String) :=
  Option.map (fun segs => segs.filterMap extractName) (parseTemplate t)

/-- input_missing_vars, lines 32-49: compute the missing names and solicit a
value for each from the supply function, extending the mapping; the second
component of the result is the list of solicited names. -/
def input_missing_vars (t : String) (vars : List (String × String))
    (supply : String → String) :
    Option (List (String × String) × List String) :=
  Option.map
    (fun keys =>
      let missing := keys.filter fun k => (List.lookup k vars).isNone
      (missing.foldl (fun vs k => (k, supply k) :: vs) vars, missing))
    (extract_placeholders t)

/-- A spec part that is literal text (no nested replacement field). -/
def specLit : SpecPart → Bool
  | SpecPart.lit _ => true
  | SpecPart.field _ => false

/-- A segment whose rendering can never consult a key other than its own
field name: the field name contains no attribute or index access, and the
format spec contains no nested replacement fields.  Literal segments are
trivially simple. -/
def simpleSeg : Seg → Bool
  | Seg.lit _ => true
  | Seg.field n _ sp => n.data.all simpleChar && sp.all specLit

/-- One row of the prompt_history table, as inserted by save_to_db
(lines 109-112). -/
structure TurnRecord where
  session : Nat
  ptype : String
  model : String
  prompt : String
  result : String
  feedback : String
  accepted : Nat
deriving DecidableEq

/-- SELECT MAX(session) FROM prompt_history (line 311): none models the NULL
an aggregate over an empty table returns. -/
def maxSession : List TurnRecord → Option Nat
  | [] => none
  | r :: rest =>
    match maxSession rest with
    | none => some r.session
    | some m => some (max r.session m)

/-- Lines 310-313: the session number chosen for a run, the operation the
specification names next_session_id: max existing session plus one, or 1 when
the table has no session. -/
def next_session_id (hist : List TurnRecord) : Nat :=
  match maxSession hist with
  | none => 1
  | some m => m + 1

/-- An operation against the history store, for stating how ids behave across
a sequence of next_session_id calls interleaved with row insertions. -/
inductive StoreOp where
  | nextId
  | appendTurn (r : TurnRecord)

/-- Run a sequence of store operations from an initial table; returns the
final table and the ids the nextId calls returned, in order. -/
def runStoreOps : List StoreOp → List TurnRecord → List TurnRecord × List Nat
  | [], hist => (hist, [])
  | StoreOp.nextId :: ops, hist =>
    let r := runStoreOps ops hist
    (r.1, next_session_id hist :: r.2)
  | StoreOp.appendTurn rec :: ops, hist => runStoreOps ops (rec :: hist)

/-- get_session_summary (lines 114-118): the summary for the type when a row
exists and its summary is truthy, otherwise the empty string. -/
def get_session_summary (store : List (String × String)) (ptype : String) : String :=
  match List.lookup ptype store with
  | some s => if s = "" then "" else s
  | none => ""

/-- save_session_summary (lines 120-126): INSERT with ON CONFLICT DO UPDATE,
create if absent, overwrite if present. -/
def save_session_summary (store : List (String × String)) (ptype s : String) :
    List (String × String) :=
  if (List.lookup ptype store).isSome then
    store.map fun p => if p.1 = ptype then (ptype, s) else p
  else store ++ [(ptype, s)]

/-- The parameters of one run of the tuning loop that stay fixed across
iterations: learning mode, the session number, the detected prompt type and
the model name. -/
structure Config where
  learn : Bool
  session : Nat
  promptType : String
  model : String
deriving DecidableEq

/-- The outcome of one backend call: generated text, or the failure the
specification calls CompletionFailed. -/
inductive Completion where
  | ok (text : String)
  | failed
deriving DecidableEq

/-- The external inputs one loop iteration can consume: the value typed for a
render-time missing variable, the three backend completions the iteration may
request (execution, revision, summary), the feedback line, and the accept
answer.  Each is consumed at most once per iteration. -/
structure IterInputs where
  missingVarValue : String
  execCompletion : Completion
  rawFeedback : String
  revisionCompletion : Completion
  acceptChoice : String
  summaryCompletion : Completion
deriving DecidableEq

/-- The mutable state of the loop: the current template, the variable
mapping, the prompt_history table and the session_summary table. -/
structure LoopState where
  currentPrompt : String
  varMap : List (String × String)
  history : List TurnRecord
  summaries : List (String × String)
deriving DecidableEq

/-- How one iteration ends: continue to the next iteration, break out of the
loop, or abort the whole run with an uncaught exception. -/
inductive IterOutcome where
  | next
  | exit
  | abort
deriving DecidableEq

/-- Everything observable about one iteration: the outcome, the state after
it, which variable (if any) was solicited in the KeyError handler, the
stripped feedback (when the feedback prompt was reached), whether the accept
prompt was issued, whether a revision was attempted, the consolidation shape
(some true means merge with the prior summary) and the feedbacks it read when
the consolidation meta-prompt was built, whether the consolidation completed
(its upsert ran), and the history rows written during the iteration. -/
structure IterResult where
  outcome : IterOutcome
  state : LoopState
  solicitedVar : Option String
  feedback : Option String
  acceptPrompted : Bool
  revisionAttempted : Bool
  consolidationShape : Option Bool
  consolidationFeedbacks : Option (List String)
  consolidated : Bool
  writes : List TurnRecord
deriving DecidableEq

/-- The row save_to_db inserts for this run (lines 402 and 408). -/
def mkRecord (cfg : Config) (filled response fb : String) (acc : Nat) : TurnRecord :=
  ⟨cfg.session, cfg.promptType, cfg.model, filled, response, fb, acc⟩

/-- Lines 403-449: the branch taken when the stripped feedback is empty.  The
accept prompt is issued, in learning mode the turn is saved, then (still in
learning mode) the session feedbacks and the previous summary are read and
the consolidation query is issued — the merge shape exactly when the previous
summary is non-empty — and its result is stored with upsert semantics; a
summary-call failure aborts the run after the turn row was already written.
The file-save prompts touch no store and are not modelled. -/
def acceptBranch (cfg : Config) (st : LoopState) (inp : IterInputs)
    (filled response : String) : IterResult :=
  let accepted := if pyLower (pyStrip inp.acceptChoice) = "y" then 1 else 0
  let writes := if cfg.learn then [mkRecord cfg filled response "" accepted] else []
  let st1 : LoopState := { st with history := st.history ++ writes }
  if cfg.learn then
    let prevSummary := get_session_summary st1.summaries cfg.promptType
    let feedbacks :=
      (st1.history.filter fun r => r.session == cfg.session && r.feedback != "").map
        fun r => r.feedback
    match inp.summaryCompletion with
    | Completion.failed =>
      { outcome := IterOutcome.abort, state := st1, solicitedVar := none,
        feedback := some "", acceptPrompted := true, revisionAttempted := false,
        consolidationShape := some (prevSummary != ""),
        consolidationFeedbacks := some feedbacks, consolidated := false, writes := writes }
    | Completion.ok summaryText =>
      let st2 : LoopState :=
        { st1 with
          summaries := save_session_summary st1.summaries cfg.promptType (pyStrip summaryText) }
      { outcome := IterOutcome.exit, state := st2, solicitedVar := none,
        feedback := some "", acceptPrompted := true, revisionAttempted := false,
        consolidationShape := some (prevSummary != ""),
        consolidationFeedbacks := some feedbacks, consolidated := true, writes := writes }
  else
    { outcome := IterOutcome.exit, state := st1, solicitedVar := none,
      feedback := some "", acceptPrompted := true, revisionAttempted := false,
      consolidationShape := none, consolidationFeedbacks := none,
      consolidated := false, writes := [] }

/-- Lines 369-402: the branch taken when the stripped feedback is non-empty.
The revision query is issued (a failure aborts the run before anything is
written), the stripped revision output becomes the new template, and in
learning mode the turn is saved with accepted = 0 after the revision call. -/
def feedbackBranch (cfg : Config) (st : LoopState) (inp : IterInputs)
    (filled response problems : String) : IterResult :=
  match inp.revisionCompletion with
  | Completion.failed =>
    { outcome := IterOutcome.abort, state := st, solicitedVar := none,
      feedback := some problems, acceptPrompted := false, revisionAttempted := true,
      consolidationShape := none, consolidationFeedbacks := none,
      consolidated := false, writes := [] }
  | Completion.ok revised =>
    let writes := if cfg.learn then [mkRecord cfg filled response problems 0] else []
    let st1 : LoopState :=
      { st with currentPrompt := pyStrip revised, history := st.history ++ writes }
    { outcome := IterOutcome.next, state := st1, solicitedVar := none,
      feedback := some problems, acceptPrompted := false, revisionAttempted := true,
      consolidationShape := none, consolidationFeedbacks := none,
      consolidated := false, writes := writes }

/-- One iteration of the while loop of prompt_tuning_loop (lines 344-449):
format the template (a KeyError solicits exactly that variable and continues;
any other formatting error breaks without touching the stores), execute the
filled prompt (a backend failure is an uncaught exception aborting the run),
strip the feedback line and dispatch on its emptiness. -/
def loopIter (cfg : Config) (st : LoopState) (inp : IterInputs) : IterResult :=
  match pyFormat st.currentPrompt st.varMap with
  | Except.error (PyErr.keyError name) =>
    { outcome := IterOutcome.next,
      state := { st with varMap := (name, inp.missingVarValue) :: st.varMap },
      solicitedVar := some name, feedback := none, acceptPrompted := false,
      revisionAttempted := false, consolidationShape := none,
      consolidationFeedbacks := none, consolidated := false, writes := [] }
  | Except.error PyErr.generic =>
    { outcome := IterOutcome.exit, state := st, solicitedVar := none,
      feedback := none, acceptPrompted := false, revisionAttempted := false,
      consolidationShape := none, consolidationFeedbacks := none,
      consolidated := false, writes := [] }
  | Except.ok filled =>
    match inp.execCompletion with
    | Completion.failed =>
      { outcome := IterOutcome.abort, state := st, solicitedVar := none,
        feedback := none, acceptPrompted := false, revisionAttempted := false,
        consolidationShape := none, consolidationFeedbacks := none,
        consolidated := false, writes := [] }
    | Completion.ok response =>
      let problems := pyStrip inp.rawFeedback
      if problems = "" then acceptBranch cfg st inp filled response
      else feedbackBranch cfg st inp filled response problems

/-- How a whole run of the loop ends: through the empty-feedback
accept-or-reject path (the break at line 449), through the generic
formatting-error break (line 356), by an uncaught exception, or not at all
within the supplied inputs. -/
inductive TermKind where
  | acceptedPath
  | formatError
  | aborted
  | outOfInput
deriving DecidableEq

/-- The observable outcome of a run: final state, how it ended, how many
consolidations completed, and every history row written. -/
structure RunResult where
  state : LoopState
  termination : TermKind
  consolidations : Nat
  writes : List TurnRecord
deriving DecidableEq

/-- The while loop of prompt_tuning_loop, driven by a list of per-iteration
inputs (the list doubles as fuel; running out of inputs means the interactive
loop is still going). -/
def runLoop (cfg : Config) : List IterInputs → LoopState → RunResult
  | [], st => ⟨st, TermKind.outOfInput, 0, []⟩
  | inp :: rest, st =>
    let r := loopIter cfg st inp
    match r.outcome with
    | IterOutcome.next =>
      let rr := runLoop cfg rest r.state
      ⟨rr.state, rr.termination, (if r.consolidated then 1 else 0) + rr.consolidations,
        r.writes ++ rr.writes⟩
    | IterOutcome.exit =>
      ⟨r.state, if r.acceptPrompted then TermKind.acceptedPath else TermKind.formatError,
        if r.consolidated then 1 else 0, r.writes⟩
    | IterOutcome.abort =>
      ⟨r.state, TermKind.aborted, if r.consolidated then 1 else 0, r.writes⟩

-- ### Session-summary store: lookup lemmas and the upsert property

theorem lookup_map_set (t s : String) :
    ∀ store : List (String × String),
      List.lookup t (store.map fun p => if p.1 = t then (t, s) else p)
        = Option.map (fun _ => s) (List.lookup t store) := by
  intro store
  induction store with
  | nil => rfl
  | cons p rest ih =>
    obtain ⟨k, v⟩ := p
    by_cases hk : k = t
    · subst hk
      have h1 : (if (k, v).1 = k then (k, s) else (k, v)) = (k, s) := if_pos rfl
      rw [List.map_cons, h1]
      simp [List.lookup]
    · have hbk : (t == k) = false := by
        simp only [beq_eq_false_iff_ne, ne_eq]
        exact fun h => hk h.symm
      have h1 : (if (k, v).1 = t then (t, s) else (k, v)) = (k, v) := if_neg hk
      rw [List.map_cons, h1]
      simp only [List.lookup, hbk]
      exact ih

theorem lookup_append_single (t s : String) :
    ∀ store : List (String × String), List.lookup t store = none →
      List.lookup t (store ++ [(t, s)]) = some s := by
  intro store
  induction store with
  | nil => intro _; simp [List.lookup]
  | cons p rest ih =>
    obtain ⟨k, v⟩ := p
    intro h
    rw [List.cons_append]
    cases hk : (t == k) with
    | true => exfalso; simp [List.lookup, hk] at h
    | false =>
      simp only [List.lookup, hk] at h ⊢
      exact ih h

theorem lookup_save (store : List (String × String)) (t s : String) :
    List.lookup t (save_session_summary store t s) = some s := by
  unfold save_session_summary
  by_cases h : (List.lookup t store).isSome
  · rw [if_pos h, lookup_map_set]
    obtain ⟨v, hv⟩ := Option.isSome_iff_exists.mp h
    simp [hv]
  · rw [if_neg h]
    exact lookup_append_single t s store (Option.not_isSome_iff_eq_none.mp h)

/-- C5: after upsert_summary(t, s1) followed by upsert_summary(t, s2), the
point lookup get_summary(t) returns s2 — create-if-absent,
overwrite-if-present, last-write-wins, as implemented by
save_session_summary / get_session_summary. -/
theorem summary_upsert_last_write_wins (store : List (String × String)) (t s1 s2 : String) :
    get_session_summary (save_session_summary (save_session_summary store t s1) t s2) t = s2 := by
  unfold get_session_summary
  rw [lookup_save]
  by_cases h : s2 = "" <;> simp [h]

-- ### Session ids

theorem exists_maxSession :
    ∀ (hist : List TurnRecord) (r : TurnRecord), r ∈ hist →
      ∃ m, maxSession hist = some m ∧ r.session ≤ m := by
  intro hist
  induction hist with
  | nil => intro r hr; exact absurd hr (List.not_mem_nil r)
  | cons a rest ih =>
    intro r hr
    rcases List.mem_cons.mp hr with h | h
    · subst h
      cases hm : maxSession rest with
      | none => exact ⟨r.session, by simp [maxSession, hm], le_refl _⟩
      | some m => exact ⟨max r.session m, by simp [maxSession, hm], le_max_left _ _⟩
    · obtain ⟨m, hm, hle⟩ := ih r h
      exact ⟨max a.session m, by simp [maxSession, hm], le_trans hle (le_max_right _ _)⟩

theorem maxSession_mem :
    ∀ (hist : List TurnRecord) (m : Nat), maxSession hist = some m →
      ∃ r, r ∈ hist ∧ r.session = m := by
  intro hist
  induction hist with
  | nil => intro m hm; simp [maxSession] at hm
  | cons a rest ih =>
    intro m hm
    cases hr : maxSession rest with
    | none =>
      simp only [maxSession, hr] at hm
      exact ⟨a, List.mem_cons_self a rest, by injection hm⟩
    | some m0 =>
      simp only [maxSession, hr] at hm
      have hm2 : max a.session m0 = m := by injection hm
      rcases le_total a.session m0 with hle | hle
      · obtain ⟨r, hrm, hrs⟩ := ih m0 hr
        refine ⟨r, List.mem_cons_of_mem _ hrm, ?_⟩
        rw [hrs, ← hm2, max_eq_right hle]
      · exact ⟨a, List.mem_cons_self _ _, by rw [← hm2, max_eq_left hle]⟩

theorem maxSession_cons_isSome (a : TurnRecord) (rest : List TurnRecord) :
    (maxSession (a :: rest)).isSome = true := by
  simp only [maxSession]
  cases maxSession rest <;> simp

/-- C4 (amended): next_session_id returns max existing session id plus one,
or 1 when the table is empty; every returned id is strictly greater than
every session id persisted at the time of the call; and the id strictly
increases across calls provided a record with at least the returned id is
persisted before the next call.  Without such a persist, consecutive calls
return the same id (see the counterexample). -/
theorem next_session_id_correct :
    (next_session_id [] = 1)
    ∧ (∀ (hist : List TurnRecord) (r : TurnRecord), r ∈ hist →
        r.session < next_session_id hist)
    ∧ (∀ hist : List TurnRecord, hist ≠ [] →
        ∃ r, r ∈ hist ∧ next_session_id hist = r.session + 1)
    ∧ (∀ hist add : List TurnRecord,
        (∃ r, r ∈ add ∧ next_session_id hist ≤ r.session) →
        next_session_id hist < next_session_id (add ++ hist)) := by
  have hlt : ∀ (hist : List TurnRecord) (r : TurnRecord), r ∈ hist →
      r.session < next_session_id hist := by
    intro hist r hr
    obtain ⟨m, hm, hle⟩ := exists_maxSession hist r hr
    simp only [next_session_id, hm]
    omega
  refine ⟨rfl, hlt, ?_, ?_⟩
  · intro hist hne
    cases hist with
    | nil => exact absurd rfl hne
    | cons a rest =>
      obtain ⟨m, hm⟩ := Option.isSome_iff_exists.mp (maxSession_cons_isSome a rest)
      obtain ⟨r, hrm, hrs⟩ := maxSession_mem _ m hm
      exact ⟨r, hrm, by simp [next_session_id, hm, hrs]⟩
  · intro hist add hex
    obtain ⟨r, hra, hle⟩ := hex
    have h1 : r.session < next_session_id (add ++ hist) :=
      hlt _ r (List.mem_append_left hist hra)
    omega

/-- C4 counterexample: two next_session_id calls against the same
single-writer store with no persist in between both return 1, so the
returned ids are not strictly increasing as the claim states. -/
theorem session_id_not_monotonic :
    (runStoreOps [StoreOp.nextId, StoreOp.nextId] []).2 = [1, 1]
    ∧ ¬ List.Chain' (fun a b : Nat => a < b)
        (runStoreOps [StoreOp.nextId, StoreOp.nextId] []).2 := by
  refine ⟨rfl, ?_⟩
  intro h
  rw [show (runStoreOps [StoreOp.nextId, StoreOp.nextId] []).2 = [1, 1] from rfl] at h
  exact absurd (List.chain'_cons.mp h).1 (lt_irrefl 1)

/-- C4 witness: a store holding one record with session 3 makes
next_session_id return 4, strictly above the persisted id, and persisting the
returned id makes the next call return a strictly larger id. -/
theorem next_session_id_witness :
    next_session_id [] < next_session_id ([⟨1, "t", "m", "p", "r", "f", 0⟩] ++ []) :=
  next_session_id_correct.2.2.2 [] [⟨1, "t", "m", "p", "r", "f", 0⟩]
    ⟨⟨1, "t", "m", "p", "r", "f", 0⟩, by simp, by decide⟩

-- ### String helpers: split produces non-empty whitespace-free tokens

theorem pySplitAux_ne_nil :
    ∀ (l acc : List Char), acc.isEmpty = false → pySplitAux l acc ≠ [] := by
  intro l
  induction l with
  | nil =>
    intro acc ha
    simp [pySplitAux, ha]
  | cons c cs ih =>
    intro acc ha
    by_cases hc : pyIsSpace c = true
    · simp only [pySplitAux, hc, if_true, ha, if_false]
      exact List.cons_ne_nil _ _
    · have hc2 : pyIsSpace c = false := by
        cases h : pyIsSpace c
        · rfl
        · exact absurd h hc
      simp only [pySplitAux, hc2, Bool.false_eq_true, if_false]
      exact ih (c :: acc) rfl

theorem pySplitAux_nil_of_allSpace :
    ∀ l : List Char, (∀ c ∈ l, pyIsSpace c = true) → pySplitAux l [] = [] := by
  intro l
  induction l with
  | nil => intro _; rfl
  | cons c cs ih =>
    intro h
    have hc : pyIsSpace c = true := h c (List.mem_cons_self c cs)
    simp only [pySplitAux, hc, if_true, List.isEmpty_nil]
    exact ih fun x hx => h x (List.mem_cons_of_mem c hx)

theorem allSpace_of_pySplitAux_nil :
    ∀ (l acc : List Char), pySplitAux l acc = [] → ∀ c ∈ l, pyIsSpace c = true := by
  intro l
  induction l with
  | nil => intro acc _ c hc; exact absurd hc (List.not_mem_nil c)
  | cons c cs ih =>
    intro acc h x hx
    by_cases hc : pyIsSpace c = true
    · by_cases ha : acc.isEmpty
      · rcases List.mem_cons.mp hx with hxc | hxs
        · rw [hxc]; exact hc
        · simp only [pySplitAux, hc, if_true, ha, if_true] at h
          exact ih [] h x hxs
      · have ha2 : acc.isEmpty = false := by
          cases hb : acc.isEmpty
          · rfl
          · exact absurd hb ha
        simp only [pySplitAux, hc, if_true, ha2, Bool.false_eq_true, if_false] at h
        exact absurd h (List.cons_ne_nil _ _)
    · have hc2 : pyIsSpace c = false := by
        cases hb : pyIsSpace c
        · rfl
        · exact absurd hb hc
      simp only [pySplitAux, hc2, Bool.false_eq_true, if_false] at h
      exact absurd h (pySplitAux_ne_nil cs (c :: acc) rfl)

theorem pySplitAux_tokens :
    ∀ (l acc : List Char), (∀ c ∈ acc, pyIsSpace c = false) →
      ∀ t ∈ pySplitAux l acc, t.data ≠ [] ∧ ∀ c ∈ t.data, pyIsSpace c = false := by
  intro l
  induction l with
  | nil =>
    intro acc hacc t ht
    by_cases ha : acc.isEmpty
    · simp only [pySplitAux, ha, if_true] at ht
      exact absurd ht (List.not_mem_nil t)
    · have ha2 : acc.isEmpty = false := by
        cases hb : acc.isEmpty
        · rfl
        · exact absurd hb ha
      simp only [pySplitAux, ha2, Bool.false_eq_true, if_false, List.mem_singleton] at ht
      subst ht
      have hane : acc ≠ [] := fun h => by rw [h] at ha2; exact absurd ha2 (by simp)
      refine ⟨?_, ?_⟩
      · intro hrev
        exact hane (List.reverse_eq_nil_iff.mp hrev)
      · intro c hc
        exact hacc c (List.mem_reverse.mp hc)
  | cons c cs ih =>
    intro acc hacc t ht
    by_cases hc : pyIsSpace c = true
    · by_cases ha : acc.isEmpty
      · simp only [pySplitAux, hc, if_true, ha, if_true] at ht
        exact ih [] (by intro x hx; exact absurd hx (List.not_mem_nil x)) t ht
      · have ha2 : acc.isEmpty = false := by
          cases hb : acc.isEmpty
          · rfl
          · exact absurd hb ha
        simp only [pySplitAux, hc, if_true, ha2, Bool.false_eq_true, if_false,
          List.mem_cons] at ht
        rcases ht with hthead | httail
        · subst hthead
          have hane : acc ≠ [] := fun h => by rw [h] at ha2; exact absurd ha2 (by simp)
          refine ⟨?_, ?_⟩
          · intro hrev
            exact hane (List.reverse_eq_nil_iff.mp hrev)
          · intro x hx
            exact hacc x (List.mem_reverse.mp hx)
        · exact ih [] (by intro x hx; exact absurd hx (List.not_mem_nil x)) t httail
    · have hc2 : pyIsSpace c = false := by
        cases hb : pyIsSpace c
        · rfl
        · exact absurd hb hc
      simp only [pySplitAux, hc2, Bool.false_eq_true, if_false] at ht
      refine ih (c :: acc) ?_ t ht
      intro x hx
      rcases List.mem_cons.mp hx with hxc | hxa
      · rw [hxc]; exact hc2
      · exact hacc x hxa

-- ### Strip preserves the all-whitespace property in both directions

theorem pyStrip_allSpace (r : String) :
    (∀ c ∈ (pyStrip r).data, pyIsSpace c = true) ↔
      (∀ c ∈ r.data, pyIsSpace c = true) := by
  constructor
  · intro h c hc
    have hsplit := List.takeWhile_append_dropWhile (p := pyIsSpace) (l := r.data)
    rw [← hsplit] at hc
    rcases List.mem_append.mp hc with h1 | h1
    · exact List.mem_takeWhile_imp h1
    · have hc2 : c ∈ (r.data.dropWhile pyIsSpace).reverse := List.mem_reverse.mpr h1
      have hsplit2 := List.takeWhile_append_dropWhile (p := pyIsSpace)
        (l := (r.data.dropWhile pyIsSpace).reverse)
      rw [← hsplit2] at hc2
      rcases List.mem_append.mp hc2 with h2 | h2
      · exact List.mem_takeWhile_imp h2
      · exact h c (by simpa [pyStrip] using List.mem_reverse.mpr h2)
  · intro h c hc
    have h1 : c ∈ ((r.data.dropWhile pyIsSpace).reverse.dropWhile pyIsSpace) := by
      simpa [pyStrip] using hc
    have h2 : c ∈ (r.data.dropWhile pyIsSpace).reverse :=
      (List.dropWhile_sublist _).subset h1
    have h3 : c ∈ r.data.dropWhile pyIsSpace := List.mem_reverse.mp h2
    exact h c ((List.dropWhile_sublist _).subset h3)

-- ### Lower-casing never produces whitespace

theorem pyIsSpace_pyLowerChar (c : Char) (h : pyIsSpace c = false) :
    pyIsSpace (pyLowerChar c) = false := by
  unfold pyLowerChar
  split
  · rename_i hc
    obtain ⟨h1, h2⟩ := hc
    revert h1 h2
    generalize c.toNat = n
    intro h1 h2
    interval_cases n <;> decide
  · exact h

/-- C3: the task-type classifier returns the first whitespace-delimited token
of the backend response, lower-cased; whenever it returns a label, the label
is non-empty and contains no whitespace (a single word), and it fails (the
ClassificationFailed case) exactly when the response consists of whitespace
only. -/
theorem detect_prompt_type_contract :
    (∀ r l, detect_prompt_type r = some l →
      l ≠ "" ∧ ∀ c ∈ l.data, pyIsSpace c = false)
    ∧ (∀ r, detect_prompt_type r = none ↔ ∀ c ∈ r.data, pyIsSpace c = true) := by
  constructor
  · intro r l h
    cases hsp : pySplit (pyStrip r) with
    | nil =>
      have hd : detect_prompt_type r = none := by
        unfold detect_prompt_type
        rw [hsp]
      rw [hd] at h
      exact absurd h (by simp)
    | cons t ts =>
      have hd : detect_prompt_type r = some (pyLower t) := by
        unfold detect_prompt_type
        rw [hsp]
      rw [hd] at h
      have hl : l = pyLower t := (Option.some.injEq _ _ ▸ h).symm
      have htok : t.data ≠ [] ∧ ∀ c ∈ t.data, pyIsSpace c = false := by
        refine pySplitAux_tokens (pyStrip r).data [] ?_ t ?_
        · intro x hx; exact absurd hx (List.not_mem_nil x)
        · show t ∈ pySplit (pyStrip r)
          rw [hsp]
          exact List.mem_cons_self t ts
      have hldata : l.data = t.data.map pyLowerChar := by
        rw [hl]; rfl
      constructor
      · intro hemp
        apply htok.1
        have : l.data = [] := by rw [hemp]
        rw [hldata] at this
        exact List.map_eq_nil_iff.mp this
      · intro c hc
        rw [hldata] at hc
        obtain ⟨c0, hc0, hcc⟩ := List.mem_map.mp hc
        rw [← hcc]
        exact pyIsSpace_pyLowerChar c0 (htok.2 c0 hc0)
  · intro r
    cases hsp : pySplit (pyStrip r) with
    | nil =>
      have hd : detect_prompt_type r = none := by
        unfold detect_prompt_type
        rw [hsp]
      rw [hd]
      constructor
      · intro _
        have hstrip : ∀ c ∈ (pyStrip r).data, pyIsSpace c = true :=
          allSpace_of_pySplitAux_nil (pyStrip r).data [] hsp
        exact (pyStrip_allSpace r).mp hstrip
      · intro _; rfl
    | cons t ts =>
      have hd : detect_prompt_type r = some (pyLower t) := by
        unfold detect_prompt_type
        rw [hsp]
      rw [hd]
      constructor
      · intro h; exact absurd h (by simp)
      · intro hall
        exfalso
        have hstrip := (pyStrip_allSpace r).mpr hall
        have hnil : pySplit (pyStrip r) = [] :=
          pySplitAux_nil_of_allSpace (pyStrip r).data hstrip
        rw [hsp] at hnil
        exact absurd hnil (List.cons_ne_nil t ts)

/-- C3 witness: on the response "  Hello World  " the classifier returns the
single non-empty label "hello". -/
theorem detect_prompt_type_witness :
    detect_prompt_type "  Hello World  " = some "hello" ∧ "hello" ≠ "" :=
  ⟨by decide, (detect_prompt_type_contract.1 "  Hello World  " "hello" (by decide)).1⟩

-- ### Rendering: which fields can raise KeyError

theorem all_takeWhile_eq (p : Char → Bool) :
    ∀ l : List Char, l.all p = true → l.takeWhile p = l := by
  intro l
  induction l with
  | nil => intro _; rfl
  | cons c cs ih =>
    intro h
    rw [List.all_cons, Bool.and_eq_true] at h
    simp [List.takeWhile_cons, h.1, ih h.2]

theorem string_eq_empty_of_data (n : String) (h : n.data = []) : n = "" := by
  cases n with
  | mk d =>
    have hd : d = [] := h
    subst hd
    rfl

theorem applyConv_ne_keyError (cv : Option Char) (v name : String) :
    applyConv cv v ≠ Except.error (PyErr.keyError name) := by
  cases cv with
  | none => simp [applyConv]
  | some c =>
    simp only [applyConv]
    split
    · simp
    · split
      · simp
      · simp

theorem resolveSpecParts_all_lit (vars : List (String × String)) :
    ∀ sp : List SpecPart, sp.all specLit = true →
      resolveSpecParts vars sp = Except.ok () := by
  intro sp
  induction sp with
  | nil => intro _; rfl
  | cons p rest ih =>
    intro h
    rw [List.all_cons, Bool.and_eq_true] at h
    cases p with
    | lit s =>
      simp only [resolveSpecParts]
      exact ih h.2
    | field n => simp [specLit] at h

theorem lookupVar_ne_keyError (vars : List (String × String)) (n : String)
    (hsimple : n.data.all simpleChar = true)
    (hmem : n ≠ "" → (List.lookup n vars).isSome = true) :
    ∀ name, lookupVar vars n ≠ Except.error (PyErr.keyError name) := by
  intro name
  unfold lookupVar
  have hfirst : String.mk (n.data.takeWhile simpleChar) = n := by
    rw [all_takeWhile_eq simpleChar n.data hsimple]
  rw [hfirst]
  cases he : n.data.isEmpty with
  | true => simp [he]
  | false =>
    cases hd : n.data.all Char.isDigit with
    | true => simp [he, hd]
    | false =>
      have hne : n ≠ "" := by
        intro hn
        rw [hn] at he
        exact absurd he (by decide)
      obtain ⟨v, hv⟩ := Option.isSome_iff_exists.mp (hmem hne)
      simp [he, hd, hv]

theorem renderField_ne_keyError (vars : List (String × String)) (n : String)
    (cv : Option Char) (sp : List SpecPart)
    (hsimple : n.data.all simpleChar = true) (hsp : sp.all specLit = true)
    (hmem : n ≠ "" → (List.lookup n vars).isSome = true) :
    ∀ name, renderField n cv sp vars ≠ Except.error (PyErr.keyError name) := by
  intro name
  cases hlv : lookupVar vars n with
  | error e =>
    cases e with
    | keyError s => exact absurd hlv (lookupVar_ne_keyError vars n hsimple hmem s)
    | generic => simp [renderField, hlv]
  | ok v =>
    cases hac : applyConv cv v with
    | error e =>
      cases e with
      | keyError s => exact absurd hac (applyConv_ne_keyError cv v s)
      | generic => simp [renderField, hlv, hac]
    | ok v2 =>
      simp [renderField, hlv, hac, resolveSpecParts_all_lit vars sp hsp]

theorem renderSegs_ne_keyError (vars : List (String × String)) :
    ∀ segs : List Seg, (∀ s ∈ segs, simpleSeg s = true) →
      (∀ n cv sp, Seg.field n cv sp ∈ segs → n ≠ "" →
        (List.lookup n vars).isSome = true) →
      ∀ name, renderSegs vars segs ≠ Except.error (PyErr.keyError name) := by
  intro segs
  induction segs with
  | nil => intro _ _ name; simp [renderSegs]
  | cons sg rest ih =>
    intro hsimple hmem name
    have ihr := ih (fun x hx => hsimple x (List.mem_cons_of_mem _ hx))
      (fun n cv sp h2 => hmem n cv sp (List.mem_cons_of_mem _ h2))
    cases sg with
    | lit s =>
      cases hrest : renderSegs vars rest with
      | error e =>
        cases e with
        | keyError s2 => exact absurd hrest (ihr s2)
        | generic => simp [renderSegs, hrest]
      | ok r => simp [renderSegs, hrest]
    | field n cv sp =>
      have hs : simpleSeg (Seg.field n cv sp) = true :=
        hsimple _ (List.mem_cons_self _ _)
      rw [simpleSeg, Bool.and_eq_true] at hs
      cases hrf : renderField n cv sp vars with
      | error e =>
        cases e with
        | keyError s2 =>
          exact absurd hrf (renderField_ne_keyError vars n cv sp hs.1 hs.2
            (hmem n cv sp (List.mem_cons_self _ _)) s2)
        | generic => simp [renderSegs, hrf]
      | ok v =>
        cases hrest : renderSegs vars rest with
        | error e =>
          cases e with
          | keyError s2 => exact absurd hrest (ihr s2)
          | generic => simp [renderSegs, hrf, hrest]
        | ok r => simp [renderSegs, hrf, hrest]

/-- C2 (amended, corrected): the placeholder-closure property holds for
templates whose replacement fields are simple — field names without attribute
or index access (no dot or bracket) and format specs without nested
replacement fields.  For such templates, if every extracted placeholder name
is a key of the mapping, rendering never fails with KeyError (the
MissingVariable error).  The restriction is forced: extraction returns the
full dotted field name while rendering looks up only its first component, so
the unrestricted claim is false (see the counterexample). -/
theorem placeholder_closure_amended :
    ∀ (t : String) (vars : List (String × String)) (keys : List String),
      extract_placeholders t = some keys →
      (∀ s ∈ (parseTemplate t).getD [], simpleSeg s = true) →
      (∀ n ∈ keys, (List.lookup n vars).isSome = true) →
      ∀ name, pyFormat t vars ≠ Except.error (PyErr.keyError name) := by
  intro t vars keys hext hsimple hkeys name
  cases hp : parseTemplate t with
  | none =>
    unfold extract_placeholders at hext
    rw [hp] at hext
    exact absurd hext (by simp)
  | some segs =>
    have hkeys2 : keys = segs.filterMap extractName := by
      unfold extract_placeholders at hext
      rw [hp] at hext
      simpa using hext.symm
    unfold pyFormat
    rw [hp]
    refine renderSegs_ne_keyError vars segs ?_ ?_ name
    · intro s hs
      apply hsimple
      rw [hp]
      simpa using hs
    · intro n cv sp hmem hne
      apply hkeys
      rw [hkeys2]
      exact List.mem_filterMap.mpr ⟨Seg.field n cv sp, hmem, by simp [extractName, hne]⟩

/-- C2 counterexample: for the template with the single dotted placeholder
a.b and the mapping with exactly the key "a.b", the extracted placeholder set
is a subset of the mapping keys, yet rendering fails with KeyError "a" — the
MissingVariable error the claim says cannot occur. -/
theorem placeholder_closure_counterexample :
    extract_placeholders "\x7ba.b\x7d" = some ["a.b"]
    ∧ (List.lookup "a.b" [("a.b", "x")]).isSome = true
    ∧ pyFormat "\x7ba.b\x7d" [("a.b", "x")] = Except.error (PyErr.keyError "a") := by
  decide

/-- C2 witness: the simple template from the specification example renders
successfully and in particular raises no MissingVariable error. -/
theorem placeholder_closure_witness :
    pyFormat "Summarize: \x7btext\x7d" [("text", "hello")] = Except.ok "Summarize: hello"
    ∧ pyFormat "Summarize: \x7btext\x7d" [("text", "hello")]
        ≠ Except.error (PyErr.keyError "text") :=
  ⟨by decide,
    placeholder_closure_amended "Summarize: \x7btext\x7d" [("text", "hello")] ["text"]
      (by decide) (by decide) (by decide) "text"⟩

-- ### Positional and empty placeholders

/-- C10 counterexample: the template consisting of the positional placeholder
0 has the truthy (non-empty) field name "0", so extraction DOES keep it, it
IS in the missing-variable set and IS solicited from the user — contrary to
the claim; rendering then still fails in the generic branch. -/
theorem positional_placeholder_solicited :
    extract_placeholders "\x7b0\x7d" = some ["0"]
    ∧ input_missing_vars "\x7b0\x7d" [] (fun _ => "v") = some ([("0", "v")], ["0"])
    ∧ pyFormat "\x7b0\x7d" [("0", "v")] = Except.error PyErr.generic := by
  decide

/-- C10 (amended, corrected): extraction keeps every non-empty field name —
including all-digit positional names such as "0", which are therefore
included in the missing set and solicited when unmapped — and excludes only
the empty auto-numbering placeholder, which never enters the extracted or
missing set and is never solicited; at render time a field whose name is
empty or all digits always fails with the generic terminal formatting error,
never with the recoverable KeyError branch. -/
theorem placeholder_extraction_amended :
    (∀ t keys, extract_placeholders t = some keys → "" ∉ keys)
    ∧ (∀ t vars supply res, input_missing_vars t vars supply = some res → "" ∉ res.2)
    ∧ (∀ vars cv sp, renderField "" cv sp vars = Except.error PyErr.generic)
    ∧ (∀ n vars cv sp, n ≠ "" → n.data.all Char.isDigit = true →
        renderField n cv sp vars = Except.error PyErr.generic) := by
  have hext : ∀ t keys, extract_placeholders t = some keys → "" ∉ keys := by
    intro t keys hk hmem
    cases hp : parseTemplate t with
    | none =>
      unfold extract_placeholders at hk
      rw [hp] at hk
      exact absurd hk (by simp)
    | some segs =>
      unfold extract_placeholders at hk
      rw [hp] at hk
      have hkeys : keys = segs.filterMap extractName := by simpa using hk.symm
      rw [hkeys] at hmem
      obtain ⟨sg, hsg, hname⟩ := List.mem_filterMap.mp hmem
      cases sg with
      | lit s => simp [extractName] at hname
      | field n cv sp =>
        by_cases hn : n = ""
        · simp [extractName, hn] at hname
        · simp [extractName, hn] at hname
  refine ⟨hext, ?_, ?_, ?_⟩
  · intro t vars supply res hres hmem
    unfold input_missing_vars at hres
    cases hk : extract_placeholders t with
    | none =>
      rw [hk] at hres
      exact absurd hres (by simp)
    | some keys =>
      rw [hk] at hres
      simp only [Option.map, Option.some.injEq] at hres
      rw [← hres] at hmem
      exact hext t keys hk (List.mem_of_mem_filter hmem)
  · intro vars cv sp
    rfl
  · intro n vars cv sp hne hdig
    have hsimple : n.data.all simpleChar = true := by
      rw [List.all_eq_true] at hdig ⊢
      intro c hc
      have hd := hdig c hc
      by_cases h1 : c = '.'
      · rw [h1] at hd
        exact absurd hd (by decide)
      · by_cases h2 : c = '['
        · rw [h2] at hd
          exact absurd hd (by decide)
        · simp [simpleChar, h1, h2]
    have hlv : lookupVar vars n = Except.error PyErr.generic := by
      unfold lookupVar
      have hfirst : String.mk (n.data.takeWhile simpleChar) = n := by
        rw [all_takeWhile_eq simpleChar n.data hsimple]
      rw [hfirst]
      have hie : n.data.isEmpty = false := by
        cases hb : n.data.isEmpty with
        | false => rfl
        | true => exact absurd (string_eq_empty_of_data n (List.isEmpty_iff.mp hb)) hne
      simp [hie, hdig]
    unfold renderField
    rw [hlv]

/-- C10 witness: the all-digit field name "0" fails in the generic branch. -/
theorem placeholder_extraction_witness :
    renderField "0" none [] [] = Except.error PyErr.generic :=
  placeholder_extraction_amended.2.2.2 "0" [] none [] (by decide) (by decide)

-- ### The tuning loop

theorem consolidated_iff :
    ∀ (cfg : Config) (st : LoopState) (inp : IterInputs),
      (loopIter cfg st inp).consolidated = true ↔
        (cfg.learn = true ∧ (loopIter cfg st inp).outcome = IterOutcome.exit
          ∧ (loopIter cfg st inp).acceptPrompted = true) := by
  intro cfg st inp
  cases hf : pyFormat st.currentPrompt st.varMap with
  | error e =>
    cases e with
    | keyError name => simp [loopIter, hf]
    | generic => simp [loopIter, hf]
  | ok filled =>
    cases hex : inp.execCompletion with
    | failed => simp [loopIter, hf, hex]
    | ok response =>
      by_cases hp : pyStrip inp.rawFeedback = ""
      · by_cases hl : cfg.learn = true
        · cases hs : inp.summaryCompletion with
          | failed => simp [loopIter, hf, hex, hp, acceptBranch, hl, hs]
          | ok t2 => simp [loopIter, hf, hex, hp, acceptBranch, hl, hs]
        · simp [loopIter, hf, hex, hp, acceptBranch, hl]
      · cases hr : inp.revisionCompletion with
        | failed => simp [loopIter, hf, hex, hp, feedbackBranch, hr]
        | ok rev => simp [loopIter, hf, hex, hp, feedbackBranch, hr]

/-- C1: within one loop iteration, when the feedback prompt is reached, a
non-empty (stripped) feedback means the acceptance prompt is never issued,
and empty feedback means the acceptance prompt is issued and no revision is
attempted; issuing the acceptance prompt and attempting a revision are
mutually exclusive in every iteration. -/
theorem feedback_accept_mutual_exclusion :
    ∀ (cfg : Config) (st : LoopState) (inp : IterInputs),
      (∀ f, (loopIter cfg st inp).feedback = some f →
        ((f ≠ "" → (loopIter cfg st inp).acceptPrompted = false)
         ∧ (f = "" → (loopIter cfg st inp).acceptPrompted = true
              ∧ (loopIter cfg st inp).revisionAttempted = false)))
      ∧ ¬((loopIter cfg st inp).acceptPrompted = true
          ∧ (loopIter cfg st inp).revisionAttempted = true) := by
  intro cfg st inp
  cases hf : pyFormat st.currentPrompt st.varMap with
  | error e =>
    cases e with
    | keyError name => simp [loopIter, hf]
    | generic => simp [loopIter, hf]
  | ok filled =>
    cases hex : inp.execCompletion with
    | failed => simp [loopIter, hf, hex]
    | ok response =>
      by_cases hp : pyStrip inp.rawFeedback = ""
      · by_cases hl : cfg.learn = true
        · cases hs : inp.summaryCompletion with
          | failed => simp [loopIter, hf, hex, hp, acceptBranch, hl, hs]
          | ok t2 => simp [loopIter, hf, hex, hp, acceptBranch, hl, hs]
        · simp [loopIter, hf, hex, hp, acceptBranch, hl]
      · cases hr : inp.revisionCompletion with
        | failed => simp [loopIter, hf, hex, hp, feedbackBranch, hr]
        | ok rev => simp [loopIter, hf, hex, hp, feedbackBranch, hr]

/-- C1 witness: an iteration with feedback "too short" records that feedback
and never issues the acceptance prompt. -/
theorem feedback_accept_witness :
    (loopIter ⟨true, 1, "t", "m"⟩ ⟨"hello", [], [], []⟩
        ⟨"", Completion.ok "resp", "too short", Completion.ok "rev", "",
          Completion.ok "sum"⟩).feedback = some "too short"
    ∧ (loopIter ⟨true, 1, "t", "m"⟩ ⟨"hello", [], [], []⟩
        ⟨"", Completion.ok "resp", "too short", Completion.ok "rev", "",
          Completion.ok "sum"⟩).acceptPrompted = false :=
  ⟨by decide,
    ((feedback_accept_mutual_exclusion ⟨true, 1, "t", "m"⟩ ⟨"hello", [], [], []⟩
        ⟨"", Completion.ok "resp", "too short", Completion.ok "rev", "",
          Completion.ok "sum"⟩).1 "too short" (by decide)).1 (by decide)⟩

/-- C6 (amended, corrected): when the backend fails at the prompt-execution
call, or at the revision call after non-empty feedback, the iteration writes
nothing to the history store; a failure at the post-acceptance
summary-consolidation call happens only after the Turn Record of the
completed round was already written (see the counterexample); and every Turn
Record written by an iteration carries the filled prompt of that iteration,
its response, and its stripped feedback — a completed render-execute-feedback
round. -/
theorem completion_failure_isolation :
    ∀ (cfg : Config) (st : LoopState) (inp : IterInputs),
      (inp.execCompletion = Completion.failed → (loopIter cfg st inp).writes = [])
      ∧ (pyStrip inp.rawFeedback ≠ "" → inp.revisionCompletion = Completion.failed →
          (loopIter cfg st inp).writes = [])
      ∧ (∀ w ∈ (loopIter cfg st inp).writes,
          pyFormat st.currentPrompt st.varMap = Except.ok w.prompt
          ∧ inp.execCompletion = Completion.ok w.result
          ∧ w.feedback = pyStrip inp.rawFeedback
          ∧ w.session = cfg.session ∧ w.ptype = cfg.promptType
          ∧ w.model = cfg.model) := by
  intro cfg st inp
  cases hf : pyFormat st.currentPrompt st.varMap with
  | error e =>
    cases e with
    | keyError name => simp [loopIter, hf]
    | generic => simp [loopIter, hf]
  | ok filled =>
    cases hex : inp.execCompletion with
    | failed => simp [loopIter, hf, hex]
    | ok response =>
      by_cases hp : pyStrip inp.rawFeedback = ""
      · by_cases hl : cfg.learn = true
        · cases hs : inp.summaryCompletion with
          | failed => simp [loopIter, hf, hex, hp, acceptBranch, hl, hs, mkRecord]
          | ok t2 => simp [loopIter, hf, hex, hp, acceptBranch, hl, hs, mkRecord]
        · simp [loopIter, hf, hex, hp, acceptBranch, hl]
      · cases hr : inp.revisionCompletion with
        | failed => simp [loopIter, hf, hex, hp, feedbackBranch, hr]
        | ok rev =>
          by_cases hl : cfg.learn = true
          · simp [loopIter, hf, hex, hp, feedbackBranch, hr, hl, mkRecord]
          · simp [loopIter, hf, hex, hp, feedbackBranch, hr, hl]

/-- C6 counterexample: in learning mode, when the feedback is empty and the
user accepts, a failure of the summary-consolidation completion call aborts
the run — so the backend fails during the iteration (CompletionFailed) — yet
the Turn Record of the iteration has already been written to the history
store, contradicting the claim that no write occurs for an iteration in
which the backend fails. -/
theorem completion_failure_write_occurs :
    (loopIter ⟨true, 1, "t", "m"⟩ ⟨"hello", [], [], []⟩
        ⟨"", Completion.ok "resp", "", Completion.ok "rev", "y",
          Completion.failed⟩).outcome = IterOutcome.abort
    ∧ (loopIter ⟨true, 1, "t", "m"⟩ ⟨"hello", [], [], []⟩
        ⟨"", Completion.ok "resp", "", Completion.ok "rev", "y",
          Completion.failed⟩).writes = [⟨1, "t", "m", "hello", "resp", "", 1⟩] := by
  decide

/-- C6 witness: when the execution completion fails, no history write
happens. -/
theorem completion_failure_witness :
    (loopIter ⟨true, 1, "t", "m"⟩ ⟨"hello", [], [], []⟩
        ⟨"", Completion.failed, "", Completion.ok "rev", "y",
          Completion.ok "sum"⟩).writes = [] :=
  (completion_failure_isolation ⟨true, 1, "t", "m"⟩ ⟨"hello", [], [], []⟩
      ⟨"", Completion.failed, "", Completion.ok "rev", "y",
        Completion.ok "sum"⟩).1 rfl

/-- C7: a KeyError (MissingVariable) during rendering is recovered locally:
the iteration solicits exactly the missing name, stores the supplied value in
the variable mapping, keeps the same template, writes nothing, and continues
the loop — it never terminates the run, whose termination is decided entirely
by the later iterations. -/
theorem missing_variable_recovery :
    ∀ (cfg : Config) (st : LoopState) (inp : IterInputs) (name : String),
      pyFormat st.currentPrompt st.varMap = Except.error (PyErr.keyError name) →
        (loopIter cfg st inp).outcome = IterOutcome.next
        ∧ (loopIter cfg st inp).solicitedVar = some name
        ∧ (loopIter cfg st inp).state.currentPrompt = st.currentPrompt
        ∧ (loopIter cfg st inp).state.varMap = (name, inp.missingVarValue) :: st.varMap
        ∧ (loopIter cfg st inp).writes = []
        ∧ ∀ rest, (runLoop cfg (inp :: rest) st).termination
            = (runLoop cfg rest (loopIter cfg st inp).state).termination := by
  intro cfg st inp name hk
  refine ⟨?_, ?_, ?_, ?_, ?_, ?_⟩ <;> simp [loopIter, hk, runLoop]

/-- C7 witness: the template with the single placeholder x and an empty
mapping raises KeyError "x", and the iteration continues the loop. -/
theorem missing_variable_witness :
    (loopIter ⟨false, 0, "t", "m"⟩ ⟨"\x7bx\x7d", [], [], []⟩
        ⟨"v", Completion.ok "r", "", Completion.ok "rev", "",
          Completion.ok "s"⟩).outcome = IterOutcome.next :=
  (missing_variable_recovery ⟨false, 0, "t", "m"⟩ ⟨"\x7bx\x7d", [], [], []⟩
      ⟨"v", Completion.ok "r", "", Completion.ok "rev", "", Completion.ok "s"⟩
      "x" (by decide)).1

/-- C8: a malformed template (a parse error in the placeholder grammar, such
as an unmatched brace) makes rendering fail with the generic error; the
iteration is abandoned: the loop exits at once with the formatting-error
termination, no revision is attempted, no variable is solicited, nothing is
written and the state is unchanged — recovery can only come from a new
template supplied in a fresh run. -/
theorem malformed_template_terminal :
    ∀ (cfg : Config) (st : LoopState) (inp : IterInputs),
      parseTemplate st.currentPrompt = none →
        pyFormat st.currentPrompt st.varMap = Except.error PyErr.generic
        ∧ (loopIter cfg st inp).outcome = IterOutcome.exit
        ∧ (loopIter cfg st inp).state = st
        ∧ (loopIter cfg st inp).writes = []
        ∧ (loopIter cfg st inp).revisionAttempted = false
        ∧ (loopIter cfg st inp).solicitedVar = none
        ∧ ∀ rest, (runLoop cfg (inp :: rest) st).termination = TermKind.formatError := by
  intro cfg st inp hp
  have hf : pyFormat st.currentPrompt st.varMap = Except.error PyErr.generic := by
    unfold pyFormat
    rw [hp]
  refine ⟨hf, ?_, ?_, ?_, ?_, ?_, ?_⟩ <;> simp [loopIter, hf, runLoop]

/-- C8 witness: the template with an unmatched opening brace is malformed and
the iteration exits the loop. -/
theorem malformed_template_witness :
    (loopIter ⟨false, 0, "t", "m"⟩ ⟨"\x7bx", [], [], []⟩
        ⟨"", Completion.ok "r", "", Completion.ok "rev", "",
          Completion.ok "s"⟩).outcome = IterOutcome.exit :=
  (malformed_template_terminal ⟨false, 0, "t", "m"⟩ ⟨"\x7bx", [], [], []⟩
      ⟨"", Completion.ok "r", "", Completion.ok "rev", "", Completion.ok "s"⟩
      (by decide)).2.1

/-- C9: over any whole run of the loop, the number of completed
consolidations is exactly one when learning mode is enabled and the run
terminates on the empty-feedback accept-or-reject path, and zero otherwise
(in particular zero on the formatting-error break, on an abrupt abort, and
when learning is off); and whenever an iteration consolidates, the
meta-prompt used the merge-with-prior-summary shape exactly when the stored
summary for the prompt type was non-empty, and the feedbacks it read are
exactly those of the Turn Records of the current session with non-empty
feedback in the history at that point. -/
theorem consolidation_policy :
    (∀ (cfg : Config) (inputs : List IterInputs) (st : LoopState),
        (runLoop cfg inputs st).consolidations
          = if cfg.learn = true
                ∧ (runLoop cfg inputs st).termination = TermKind.acceptedPath
            then 1 else 0)
    ∧ (∀ (cfg : Config) (st : LoopState) (inp : IterInputs),
        (loopIter cfg st inp).consolidated = true →
          (loopIter cfg st inp).consolidationShape
            = some (get_session_summary st.summaries cfg.promptType != "")
          ∧ (loopIter cfg st inp).consolidationFeedbacks
            = some (((st.history ++ (loopIter cfg st inp).writes).filter
                fun r => r.session == cfg.session && r.feedback != "").map
                  fun r => r.feedback)) := by
  constructor
  · intro cfg inputs
    induction inputs with
    | nil => intro st; simp [runLoop]
    | cons inp rest ih =>
      intro st
      have hciff := consolidated_iff cfg st inp
      cases ho : (loopIter cfg st inp).outcome with
      | next =>
        have hcons : (loopIter cfg st inp).consolidated = false := by
          cases hc : (loopIter cfg st inp).consolidated with
          | false => rfl
          | true =>
            have h2 := (hciff.mp hc).2.1
            rw [ho] at h2
            exact absurd h2 (by simp)
        simp [runLoop, ho, hcons, ih]
      | exit =>
        cases hap : (loopIter cfg st inp).acceptPrompted with
        | true =>
          cases hl : cfg.learn with
          | true =>
            have hcons : (loopIter cfg st inp).consolidated = true :=
              hciff.mpr ⟨hl, ho, hap⟩
            simp [runLoop, ho, hap, hcons, hl]
          | false =>
            have hcons : (loopIter cfg st inp).consolidated = false := by
              cases hc : (loopIter cfg st inp).consolidated with
              | false => rfl
              | true =>
                have h2 := (hciff.mp hc).1
                rw [hl] at h2
                exact absurd h2 (by simp)
            simp [runLoop, ho, hap, hcons, hl]
        | false =>
          have hcons : (loopIter cfg st inp).consolidated = false := by
            cases hc : (loopIter cfg st inp).consolidated with
            | false => rfl
            | true =>
              have h2 := (hciff.mp hc).2.2
              rw [hap] at h2
              exact absurd h2 (by simp)
          simp [runLoop, ho, hap, hcons]
      | abort =>
        have hcons : (loopIter cfg st inp).consolidated = false := by
          cases hc : (loopIter cfg st inp).consolidated with
          | false => rfl
          | true =>
            have h2 := (hciff.mp hc).2.1
            rw [ho] at h2
            exact absurd h2 (by simp)
        simp [runLoop, ho, hcons]
  · intro cfg st inp
    cases hf : pyFormat st.currentPrompt st.varMap with
    | error e =>
      cases e with
      | keyError name => simp [loopIter, hf]
      | generic => simp [loopIter, hf]
    | ok filled =>
      cases hex : inp.execCompletion with
      | failed => simp [loopIter, hf, hex]
      | ok response =>
        by_cases hp : pyStrip inp.rawFeedback = ""
        · by_cases hl : cfg.learn = true
          · cases hs : inp.summaryCompletion with
            | failed => simp [loopIter, hf, hex, hp, acceptBranch, hl, hs]
            | ok t2 => simp [loopIter, hf, hex, hp, acceptBranch, hl, hs]
          · simp [loopIter, hf, hex, hp, acceptBranch, hl]
        · cases hr : inp.revisionCompletion with
          | failed => simp [loopIter, hf, hex, hp, feedbackBranch, hr]
          | ok rev => simp [loopIter, hf, hex, hp, feedbackBranch, hr]

/-- C9 witness: a one-iteration accepting run in learning mode consolidates
with the summarize-alone shape, the stored summary for the type being
empty. -/
theorem consolidation_policy_witness :
    (loopIter ⟨true, 1, "t", "m"⟩ ⟨"hello", [], [], []⟩
        ⟨"", Completion.ok "resp", "", Completion.ok "rev", "y",
          Completion.ok "sum"⟩).consolidationShape
      = some (get_session_summary ([] : List (String × String)) "t" != "") :=
  (consolidation_policy.2 ⟨true, 1, "t", "m"⟩ ⟨"hello", [], [], []⟩
      ⟨"", Completion.ok "resp", "", Completion.ok "rev", "y",
        Completion.ok "sum"⟩ (by decide)).1

end TunePrompt
